import Mathlib

/-!
Shallow embedding of the sockparty connection registry (izzymg/sockparty).

The definitions below are translated from the repository's final revision:
the `Party` registry (`src/unnamed/part_013`, first document: `New`,
`Broadcast`, `Message`, `addUser`, `removeUser`, `GetConnectedUserCount`),
the connection actor (`src/user.go`, first document: `newUser`, `write`,
`read`, `handleIncoming`, `handleLifecycle`), the options
(`src/options.go`: `DefaultOptions`) and the message types
(`src/message.go` / `src/unnamed/part_008`: the `json:"-"` tag on `UserID`).

Go `map[string]*user` is modelled as an association list with Go map
semantics (insert replaces the entry at an existing key, delete removes the
entry at a key). Side effects of an operation (lock acquisition and release,
transport writes, pings, channel sends) are modelled as an explicit event
trace emitted in source order, so that lock-discipline and writer-identity
statements can be made about each operation.
-/

/-- Which goroutine executes a step: the goroutine of the registry caller
(`Party.Broadcast` / `Party.Message` run inline on their caller),
the actor's lifecycle/keepalive goroutine (`user.handleLifecycle`),
or the actor's inbound pump goroutine (`user.handleIncoming`). -/
inductive Goroutine where
  | caller
  | lifecycle
  | pump
deriving DecidableEq, Repr

/-- An observable side effect of a registry or actor operation, in source
order. `rlock`/`runlock` are `party.mut.RLock()`/`RUnlock()`;
`lock`/`unlock` are `party.mut.Lock()`/`Unlock()`; `transportWrite uid g`
is a `wsjson.Write` against the connection of the user with ID `uid`,
executed on goroutine `g`; `ping uid g` is a `connection.Ping`;
`chanSend ch uid blocking` is a send of `uid` into the channel `ch`,
where `blocking` records whether the source uses a plain send `ch <- uid`
(true) or a `select` with a `default` branch (false). -/
inductive REvent where
  | rlock
  | runlock
  | lock
  | unlock
  | transportWrite (uid : String) (g : Goroutine)
  | ping (uid : String) (g : Goroutine)
  | chanSend (ch : String) (uid : String) (blocking : Bool)
deriving DecidableEq, Repr

/-- True for an application write against a member's transport. -/
def REvent.isWrite : REvent → Bool
  | .transportWrite _ _ => true
  | _ => false

/-- True for any operation against a member's transport (write or ping). -/
def REvent.isTransportOp : REvent → Bool
  | .transportWrite _ _ => true
  | .ping _ _ => true
  | _ => false

/-- The goroutine executing a transport operation, if the event is one. -/
def REvent.goroutine? : REvent → Option Goroutine
  | .transportWrite _ g => some g
  | .ping _ g => some g
  | _ => none

/-- How many read locks and how many write locks of `party.mut` are held. -/
structure LockCtx where
  r : Nat
  w : Nat
deriving DecidableEq, Repr

/-- Lock context after one event. -/
def stepLock (c : LockCtx) : REvent → LockCtx
  | .rlock => { c with r := c.r + 1 }
  | .runlock => { c with r := c.r - 1 }
  | .lock => { c with w := c.w + 1 }
  | .unlock => { c with w := c.w - 1 }
  | _ => c

/-- Pair every event of a trace with the lock context in force when it
occurs (the context before the event itself takes effect). -/
def traceWithLocksFrom (c : LockCtx) : List REvent → List (REvent × LockCtx)
  | [] => []
  | e :: rest => (e, c) :: traceWithLocksFrom (stepLock c e) rest

/-- Pair every event of a trace with the lock context in force when it
occurs, starting with no locks held. -/
def traceWithLocks (tr : List REvent) : List (REvent × LockCtx) :=
  traceWithLocksFrom ⟨0, 0⟩ tr

/-- A token-bucket limiter, as configured through `golang.org/x/time/rate`:
`limit` is the sustained rate in events per second, with `none` standing
for `rate.Inf` (unlimited); `burst` is the bucket size.
`rate.Every(100 * time.Millisecond)` is the rate `10` events per second. -/
structure Limiter where
  limit : Option ℚ
  burst : Nat
deriving DecidableEq, Repr

/-- Modelled from the `golang.org/x/time/rate` boundary (the limiter is an
external dependency, not code of this repository): `Wait` on a limiter
whose limit is `rate.Inf` admits immediately regardless of the token
state; otherwise one token is required and a missing amount is waited out
at the sustained rate. `tokens` is the bucket's current token count. -/
def Limiter.waitDelay (l : Limiter) (tokens : ℚ) : ℚ :=
  match l.limit with
  | none => 0
  | some r => if 1 ≤ tokens then 0 else (1 - tokens) / r

/-- Party options, from `src/options.go` (final revision). Durations are in
nanoseconds, as Go `time.Duration` values. `RateLimiter = none` models a
nil `*rate.Limiter` field. -/
structure Options where
  AllowCrossOrigin : Bool
  RateLimiter : Option Limiter
  PingFrequency : Int
  PingTimeout : Int
deriving DecidableEq, Repr

/-- One second as a Go `time.Duration` (nanoseconds). -/
def nsPerSecond : Int := 1000000000

/-- `DefaultOptions` from `src/options.go`: cross origin off, rate limiter
`rate.NewLimiter(rate.Every(time.Millisecond*100), 5)` (10 events per
second, burst 5), ping every 15 seconds, ping timeout 10 seconds. -/
def DefaultOptions : Options :=
  { AllowCrossOrigin := false
    RateLimiter := some { limit := some 10, burst := 5 }
    PingFrequency := 15 * nsPerSecond
    PingTimeout := 10 * nsPerSecond }

/-- `Outgoing` from `src/unnamed/part_008`: `Broadcast` and `UserID` carry
the `json:"-"` tag (routing is never serialized), `Event` and `Payload`
are the wire fields. The payload is kept opaque. -/
structure Outgoing where
  Broadcast : Bool
  UserID : String
  Event : String
  Payload : String
deriving DecidableEq, Repr

/-- `Incoming` (`IncomingMessage` in `src/message.go`): `Event` has tag
`json:"event"`, `Payload` has tag `json:"payload"`, and `UserID` has tag
`json:"-"`, excluding it from JSON decoding. -/
structure Incoming where
  Event : String
  UserID : String
  Payload : String
deriving DecidableEq, Repr

/-- What the peer controls on the wire for one inbound frame: the decoded
`event` and `payload` fields, plus whatever identity-like field the peer
may have included in the JSON object (which `encoding/json` never binds,
because `UserID` is tagged `json:"-"`). -/
structure WireIncoming where
  event : String
  payload : String
  claimedUserID : Option String
deriving DecidableEq, Repr

/-- `encoding/json` decoding of a wire object into a pre-initialized
`Incoming` value, following the struct tags of `src/message.go`: the
fields tagged `event` and `payload` are set from the wire; the field
tagged `json:"-"` is never touched by the decoder. -/
def decodeIncoming (w : WireIncoming) (im : Incoming) : Incoming :=
  { im with Event := w.event, Payload := w.payload }

/-- A connection actor, from `src/user.go` (final revision). The
`connection` it exclusively owns is abstracted by the outcome a transport
write against it produces: `writeErr = none` means `wsjson.Write`
succeeds, `writeErr = some e` means it fails with error text `e`. -/
structure user where
  ID : String
  writeErr : Option String
deriving DecidableEq, Repr

/-- `user.write` from `src/user.go`: a `wsjson.Write` against the user's
connection; a failure is wrapped as "Write JSON to user failed". -/
def user.write (u : user) (_m : Outgoing) : Option String :=
  match u.writeErr with
  | some e => some ("Write JSON to user failed: " ++ e)
  | none => none

/-- `user.read` from `src/user.go` (success path): the `Incoming` value is
initialized with `UserID: usr.ID`, then `wsjson.Read` decodes the wire
bytes into it according to the struct tags. -/
def user.read (u : user) (w : WireIncoming) : Incoming :=
  decodeIncoming w { Event := "", UserID := u.ID, Payload := "" }

/-- The limiter `user.handleIncoming` actually waits on (`src/user.go`
lines 94-97): the configured one, or `rate.NewLimiter(rate.Inf, 1)` when
the options carry none. -/
def user.handleIncomingLimiter (opts : Options) : Limiter :=
  match opts.RateLimiter with
  | some l => l
  | none => { limit := none, burst := 1 }

/-- One firing of the keepalive ticker in `user.handleLifecycle`
(`src/user.go` lines 79-86): `usr.ping(ctx)` runs on the actor's
lifecycle goroutine. -/
def user.lifecycleTick (u : user) : List REvent :=
  [REvent.ping u.ID Goroutine.lifecycle]

/-- Errors a registry operation can report: `ErrNoSuchUser` from
`src/unnamed/part_013`, or a propagated transport write failure. -/
inductive SockErr where
  | noSuchUser
  | writeFailed (msg : String)
deriving DecidableEq, Repr

/-- Lookup in `map[string]*user`, modelled on an association list. -/
def mapLookup (k : String) : List (String × user) → Option user
  | [] => none
  | pr :: rest => if pr.1 = k then some pr.2 else mapLookup k rest

/-- Go map insertion: replace the entry at an existing key, otherwise add
a new entry. -/
def mapInsert (k : String) (v : user) : List (String × user) → List (String × user)
  | [] => [(k, v)]
  | pr :: rest => if pr.1 = k then (k, v) :: rest else pr :: mapInsert k v rest

/-- Go map deletion: remove the entry at the key, if any. -/
def mapDelete (k : String) : List (String × user) → List (String × user)
  | [] => []
  | pr :: rest => if pr.1 = k then mapDelete k rest else pr :: mapDelete k rest

/-- The registry, from `src/unnamed/part_013` (final revision).
`connectedUsers` is the guarded map; `hasJoinChannel` and
`hasLeaveChannel` record whether `userJoinChannel` and `userLeaveChannel`
are non-nil registered sinks. -/
structure Party where
  connectedUsers : List (String × user)
  hasJoinChannel : Bool
  hasLeaveChannel : Bool
deriving DecidableEq, Repr

/-- The empty registry, as produced by `New`. -/
def emptyParty : Party :=
  { connectedUsers := [], hasJoinChannel := false, hasLeaveChannel := false }

/-- `Party.GetConnectedUserCount`: the size of `connectedUsers`, read
under `RLock`. -/
def Party.GetConnectedUserCount (p : Party) : Nat :=
  p.connectedUsers.length

/-- `Party.UserExists`: membership test under `RLock`. -/
def Party.UserExists (p : Party) (userID : String) : Bool :=
  (mapLookup userID p.connectedUsers).isSome

/-- `Party.Broadcast` from `src/unnamed/part_013` lines 136-143: take
`RLock` (released by `defer` at return), write the message to every
connected user's transport inside the loop, discard each write's error,
and return nil. The trace records the lock events and each transport
write, in source order, all on the caller's goroutine. -/
def Party.Broadcast (p : Party) (_m : Outgoing) : Option SockErr × List REvent :=
  (none,
    [REvent.rlock]
      ++ p.connectedUsers.map (fun pr => REvent.transportWrite pr.2.ID Goroutine.caller)
      ++ [REvent.runlock])

/-- `Party.Message` from `src/unnamed/part_013` lines 146-153: take
`RLock`, look the user up; if present return that user's write result,
if absent return `ErrNoSuchUser`; `RUnlock` runs at return. -/
def Party.Message (p : Party) (userID : String) (m : Outgoing) : Option SockErr × List REvent :=
  match mapLookup userID p.connectedUsers with
  | some usr =>
      ((usr.write m).map SockErr.writeFailed,
        [REvent.rlock, REvent.transportWrite usr.ID Goroutine.caller, REvent.runlock])
  | none => (some SockErr.noSuchUser, [REvent.rlock, REvent.runlock])

/-- `Party.addUser` from `src/unnamed/part_013` lines 216-224: take the
write lock, insert the user, release the lock, then, if a join channel is
registered, send the ID into it with a plain (blocking) channel send. -/
def Party.addUser (p : Party) (usr : user) : Party × List REvent :=
  ({ p with connectedUsers := mapInsert usr.ID usr p.connectedUsers },
    [REvent.lock, REvent.unlock]
      ++ (if p.hasJoinChannel then [REvent.chanSend "userJoinChannel" usr.ID true] else []))

/-- `Party.removeUser` from `src/unnamed/part_013` lines 201-213: take the
write lock; if the user is present, delete it, release the lock, send the
ID into the leave channel (plain blocking send) when one is registered,
and return nil; if absent, release the lock and return `ErrNoSuchUser`. -/
def Party.removeUser (p : Party) (id : String) : Option SockErr × Party × List REvent :=
  match mapLookup id p.connectedUsers with
  | some usr =>
      (none,
        { p with connectedUsers := mapDelete usr.ID p.connectedUsers },
        [REvent.lock, REvent.unlock]
          ++ (if p.hasLeaveChannel then [REvent.chanSend "userLeaveChannel" id true] else []))
  | none => (some SockErr.noSuchUser, p, [REvent.lock, REvent.unlock])

/-- A join or a leave, for registry operation sequences. -/
inductive Op where
  | join (u : user)
  | leave (id : String)
deriving DecidableEq, Repr

/-- Apply a sequence of joins and leaves to the registry. -/
def runParty (p : Party) : List Op → Party
  | [] => p
  | Op.join u :: rest => runParty (p.addUser u).1 rest
  | Op.leave id :: rest => runParty (p.removeUser id).2.1 rest

/-- Number of joins in a sequence (`addUser` has no failure path: every
join succeeds). -/
def joinCount : List Op → Nat
  | [] => 0
  | Op.join _ :: rest => joinCount rest + 1
  | Op.leave _ :: rest => joinCount rest

/-- Number of successful leaves in a sequence run from `p`: leaves whose
identity was present, so `removeUser` returned nil. -/
def leaveCount (p : Party) : List Op → Nat
  | [] => 0
  | Op.join u :: rest => leaveCount (p.addUser u).1 rest
  | Op.leave id :: rest =>
      (if (mapLookup id p.connectedUsers).isSome then 1 else 0)
        + leaveCount (p.removeUser id).2.1 rest

/-- A run is collision-free when no join uses an identity that is a member
at the moment of that join (the identity-issuer contract). -/
def collisionFree (p : Party) : List Op → Bool
  | [] => true
  | Op.join u :: rest =>
      (mapLookup u.ID p.connectedUsers).isNone && collisionFree (p.addUser u).1 rest
  | Op.leave id :: rest => collisionFree (p.removeUser id).2.1 rest

/-- Map well-formedness: every entry is keyed by its user's ID (the shape
`addUser` always produces, since it inserts `connectedUsers[usr.ID] = usr`). -/
def wellFormed (p : Party) : Prop :=
  ∀ pr ∈ p.connectedUsers, pr.2.ID = pr.1

/-- Registry invariant: keys are distinct and each entry is keyed by its
user's ID. -/
def partyInv (p : Party) : Prop :=
  (p.connectedUsers.map Prod.fst).Nodup ∧ wellFormed p

/-- A healthy demo member. -/
def demoUser : user := { ID := "a", writeErr := none }

/-- A demo member whose transport writes fail. -/
def demoDeadUser : user := { ID := "b", writeErr := some "broken pipe" }

/-- A one-member demo registry. -/
def demoParty : Party :=
  { connectedUsers := [("a", demoUser)], hasJoinChannel := false, hasLeaveChannel := false }

/-- A registry whose members' transport writes all fail. -/
def demoDeadParty : Party :=
  { connectedUsers := [("b", demoDeadUser)], hasJoinChannel := false, hasLeaveChannel := false }

/-- A demo registry with join and leave sinks registered. -/
def demoSinkParty : Party :=
  { connectedUsers := [("a", demoUser)], hasJoinChannel := true, hasLeaveChannel := true }

/-- A demo broadcast message. -/
def demoMsg : Outgoing :=
  { Broadcast := true, UserID := "", Event := "chat_message", Payload := "hi" }

/-- True for a channel send event (a join/leave notification). -/
def REvent.isChanSend : REvent → Bool
  | .chanSend _ _ _ => true
  | _ => false

/-- Demo options with no rate limiter configured. -/
def demoNoLimiterOpts : Options :=
  { AllowCrossOrigin := false, RateLimiter := none,
    PingFrequency := 0, PingTimeout := 0 }

/-- Demo wire frame that claims an identity in its JSON. -/
def demoWireA : WireIncoming :=
  { event := "chat_message", payload := "x", claimedUserID := some "mallory" }

/-- Demo wire frame identical to `demoWireA` except for the claimed identity. -/
def demoWireB : WireIncoming :=
  { event := "chat_message", payload := "x", claimedUserID := none }

/-- An options value applies no rate limit when the limiter field is unset
(nil) or set to an unlimited (`rate.Inf`) limiter. -/
def noRateLimit (o : Options) : Prop :=
  o.RateLimiter = none ∨ o.RateLimiter.map Limiter.limit = some none

/-- Keepalive pinging is enabled exactly when `PingFrequency` is positive:
`user.handleLifecycle` otherwise creates its ticker and immediately stops
it, so no ping is ever sent. -/
def pingEnabled (opts : Options) : Bool :=
  decide (0 < opts.PingFrequency)

/-- C1: a unicast (`Party.Message`) to an identity with no registered
member synchronously returns `ErrNoSuchUser` and performs no transport
write, so the message is delivered to no member; the operation is a total
function of the registry state, so it cannot panic. -/
theorem message_unknown_user_errors_no_write (p : Party) (id : String) (m : Outgoing)
    (h : mapLookup id p.connectedUsers = none) :
    (p.Message id m).1 = some SockErr.noSuchUser ∧
    ((p.Message id m).2.all fun e => !e.isWrite) = true := by
  simp [Party.Message, h, REvent.isWrite]

/-- C1 witness: unicast to the unknown identity "z" in the one-member demo
registry. -/
theorem message_unknown_user_errors_no_write_witness :
    (demoParty.Message "z" demoMsg).1 = some SockErr.noSuchUser ∧
    ((demoParty.Message "z" demoMsg).2.all fun e => !e.isWrite) = true :=
  message_unknown_user_errors_no_write demoParty "z" demoMsg (by decide)

/-- C4 counterexample: `DefaultOptions` does not leave the rate-limiting
field unset or unlimited — it configures a real limiter. -/
theorem default_options_rate_limit_cex : ¬ noRateLimit DefaultOptions := by
  unfold noRateLimit
  decide

/-- C4 amended: `DefaultOptions` sets a rate limiter of one token per
100ms (10 events per second) with burst 5 — a real rate limit, not an
absent or unlimited one — while keepalive pinging is enabled at a
conservative 15-second interval with a 10-second probe timeout. -/
theorem default_options_values :
    DefaultOptions.RateLimiter = some { limit := some 10, burst := 5 } ∧
    pingEnabled DefaultOptions = true ∧
    DefaultOptions.PingFrequency = 15 * nsPerSecond ∧
    DefaultOptions.PingTimeout = 10 * nsPerSecond := by
  refine ⟨rfl, ?_, rfl, rfl⟩
  decide

/-- C5: when the options carry no rate limiter, `user.handleIncoming`
substitutes `rate.NewLimiter(rate.Inf, 1)` — infinite rate, burst 1 — and
the rate-gate wait on that limiter is a no-op: zero delay at every token
state, so every frame is admitted without delay. -/
theorem nil_limiter_infinite_noop (opts : Options) (h : opts.RateLimiter = none) :
    user.handleIncomingLimiter opts = { limit := none, burst := 1 } ∧
    ∀ tokens : ℚ, (user.handleIncomingLimiter opts).waitDelay tokens = 0 := by
  have he : user.handleIncomingLimiter opts = { limit := none, burst := 1 } := by
    simp [user.handleIncomingLimiter, h]
  exact ⟨he, fun tokens => by rw [he]; rfl⟩

/-- C5 witness: options with a nil limiter, evaluated at an empty token
bucket. -/
theorem nil_limiter_infinite_noop_witness :
    user.handleIncomingLimiter demoNoLimiterOpts = { limit := none, burst := 1 } ∧
    (user.handleIncomingLimiter demoNoLimiterOpts).waitDelay 0 = 0 :=
  ⟨(nil_limiter_infinite_noop demoNoLimiterOpts rfl).1,
    (nil_limiter_infinite_noop demoNoLimiterOpts rfl).2 0⟩

/-- C9: the `UserID` of every `Incoming` produced by the inbound pump is
the identity the registry assigned to the connection, and two wire frames
that agree on the decoded fields (`event`, `payload`) but differ in any
claimed identity decode to the same `Incoming` — the wire cannot set or
overwrite `UserID`, which carries the `json:"-"` tag. -/
theorem incoming_user_id_not_from_wire (u : user) (w w2 : WireIncoming)
    (hEvent : w.event = w2.event) (hPayload : w.payload = w2.payload) :
    (u.read w).UserID = u.ID ∧ u.read w = u.read w2 := by
  refine ⟨rfl, ?_⟩
  simp [user.read, decodeIncoming, hEvent, hPayload]

/-- C9 witness: two frames differing only in the claimed identity. -/
theorem incoming_user_id_not_from_wire_witness :
    (demoUser.read demoWireA).UserID = demoUser.ID ∧
    demoUser.read demoWireA = demoUser.read demoWireB :=
  incoming_user_id_not_from_wire demoUser demoWireA demoWireB rfl rfl

/-- C10: `Party.Broadcast` returns nil for every registry state and every
message — the per-member write results are discarded inside the loop and
never reach the caller, including when every member's write fails (the
quantifier ranges over registries such as `demoDeadParty`, all of whose
members' transport writes fail). -/
theorem broadcast_returns_nil (p : Party) (m : Outgoing) :
    (p.Broadcast m).1 = none := rfl

/-- Lookup misses exactly the keys that are not in the map. -/
theorem mapLookup_eq_none_iff (k : String) (m : List (String × user)) :
    mapLookup k m = none ↔ k ∉ m.map Prod.fst := by
  induction m with
  | nil => simp [mapLookup]
  | cons pr rest ih =>
      rw [mapLookup, List.map_cons]
      by_cases h : pr.1 = k
      · simp [h]
      · rw [if_neg h, ih]
        constructor
        · intro hk hmem
          rcases List.mem_cons.mp hmem with h1 | h2
          · exact h h1.symm
          · exact hk h2
        · exact fun hmem h2 => hmem (List.mem_cons_of_mem _ h2)

/-- In a well-formed map, the user found under a key carries that key as
its ID. -/
theorem mapLookup_some_id {m : List (String × user)} {id : String} {u : user}
    (hm : ∀ pr ∈ m, pr.2.ID = pr.1) (h : mapLookup id m = some u) : u.ID = id := by
  induction m with
  | nil => simp [mapLookup] at h
  | cons pr rest ih =>
      rw [mapLookup] at h
      by_cases hp : pr.1 = id
      · simp [hp] at h
        rw [← h, hm pr (List.mem_cons_self pr rest), hp]
      · simp [hp] at h
        exact ih (fun q hq => hm q (List.mem_cons_of_mem pr hq)) h

/-- After deleting a key, looking it up misses. -/
theorem mapLookup_mapDelete_self (k : String) (m : List (String × user)) :
    mapLookup k (mapDelete k m) = none := by
  induction m with
  | nil => rfl
  | cons pr rest ih =>
      rw [mapDelete]
      by_cases hp : pr.1 = k
      · simp [hp, ih]
      · simp [mapLookup, hp, ih]

/-- C8: `Party.removeUser` on an absent identity returns `ErrNoSuchUser`,
leaves the member map unchanged and sends no leave notification (and,
being total, cannot panic); moreover on a well-formed registry a second
leave of the same identity right after a leave also returns
`ErrNoSuchUser` and changes nothing — a double-leave is harmless. -/
theorem remove_absent_user_safe (p : Party) (id : String) :
    (mapLookup id p.connectedUsers = none →
      (p.removeUser id).1 = some SockErr.noSuchUser ∧
      (p.removeUser id).2.1 = p ∧
      ((p.removeUser id).2.2.all fun e => !e.isChanSend) = true) ∧
    (wellFormed p →
      ((p.removeUser id).2.1.removeUser id).1 = some SockErr.noSuchUser ∧
      ((p.removeUser id).2.1.removeUser id).2.1 = (p.removeUser id).2.1) := by
  constructor
  · intro h
    simp [Party.removeUser, h, REvent.isChanSend]
  · intro hwf
    cases hl : mapLookup id p.connectedUsers with
    | none =>
        have hs : (p.removeUser id).2.1 = p := by simp [Party.removeUser, hl]
        rw [hs]
        simp [Party.removeUser, hl]
    | some usr =>
        have hid : usr.ID = id := mapLookup_some_id hwf hl
        have hs : (p.removeUser id).2.1
            = { p with connectedUsers := mapDelete usr.ID p.connectedUsers } := by
          simp [Party.removeUser, hl]
        have hmiss : mapLookup id (mapDelete usr.ID p.connectedUsers) = none := by
          rw [hid]; exact mapLookup_mapDelete_self id p.connectedUsers
        rw [hs]
        simp [Party.removeUser, hmiss]

/-- C8 witness: removing the unknown identity "z" from the one-member demo
registry, twice. -/
theorem remove_absent_user_safe_witness :
    ((demoParty.removeUser "z").1 = some SockErr.noSuchUser ∧
      (demoParty.removeUser "z").2.1 = demoParty ∧
      ((demoParty.removeUser "z").2.2.all fun e => !e.isChanSend) = true) ∧
    (((demoParty.removeUser "z").2.1.removeUser "z").1 = some SockErr.noSuchUser ∧
      ((demoParty.removeUser "z").2.1.removeUser "z").2.1 = (demoParty.removeUser "z").2.1) :=
  ⟨(remove_absent_user_safe demoParty "z").1 (by decide),
    (remove_absent_user_safe demoParty "z").2 (by unfold wellFormed; decide)⟩

/-- The claim's lock discipline for writes: every transport write in the
trace happens with no lock of `party.mut` held. -/
def writesOutsideLock (tr : List REvent) : Bool :=
  (traceWithLocks tr).all fun pr => !pr.1.isWrite || decide (pr.2 = ⟨0, 0⟩)

/-- The actual lock discipline of `Party.Broadcast`: every transport write
in the trace happens with the read lock held (depth one, no write lock). -/
def writesUnderReadLock (tr : List REvent) : Bool :=
  (traceWithLocks tr).all fun pr => !pr.1.isWrite || decide (pr.2 = ⟨1, 0⟩)

/-- The claim's notification discipline: every channel send in the trace
happens with no lock held and is non-blocking. -/
def sinkSendsNonblockingOutsideLock (tr : List REvent) : Bool :=
  (traceWithLocks tr).all fun pr =>
    match pr.1 with
    | REvent.chanSend _ _ b => decide (pr.2 = ⟨0, 0⟩) && !b
    | _ => true

/-- The actual notification discipline of `addUser`/`removeUser`: every
channel send in the trace happens with no lock held but is a plain
blocking send. -/
def sinkSendsBlockingOutsideLock (tr : List REvent) : Bool :=
  (traceWithLocks tr).all fun pr =>
    match pr.1 with
    | REvent.chanSend _ _ b => decide (pr.2 = ⟨0, 0⟩) && b
    | _ => true

/-- The claim's writer discipline: every transport operation (application
write or ping) is executed by the actor's lifecycle goroutine. -/
def transportOpsOnLifecycle (tr : List REvent) : Bool :=
  tr.all fun e =>
    match e.goroutine? with
    | some g => decide (g = Goroutine.lifecycle)
    | none => true

/-- The actual writer discipline of the registry's send paths: every
transport operation in the trace is executed inline on the registry
caller's goroutine. -/
def transportOpsOnCaller (tr : List REvent) : Bool :=
  tr.all fun e =>
    match e.goroutine? with
    | some g => decide (g = Goroutine.caller)
    | none => true

/-- Lock contexts along a block of transport writes followed by the
deferred `RUnlock`: no event in the block changes the lock state, so all
of them see the context the block starts with. -/
theorem traceWithLocksFrom_writes_runlock (c : LockCtx) (us : List (String × user)) :
    traceWithLocksFrom c
        ((us.map fun pr => REvent.transportWrite pr.2.ID Goroutine.caller) ++ [REvent.runlock])
      = (us.map fun pr => (REvent.transportWrite pr.2.ID Goroutine.caller, c))
          ++ [(REvent.runlock, c)] := by
  induction us with
  | nil => rfl
  | cons hd tl ih => simp [traceWithLocksFrom, stepLock, ih]

/-- C2 counterexample: in a registry with one member, `Party.Broadcast`
performs the member's transport write while the registry lock is held —
the claim that each member's write happens outside the lock is false. -/
theorem broadcast_write_inside_lock_cex :
    writesOutsideLock (demoParty.Broadcast demoMsg).2 = false := by
  decide

/-- C2 amended: `Party.Broadcast` acquires the read lock and, contrary to
the claim, holds it across every member's transport write (each write in
the trace occurs at read-lock depth one); the deferred `RUnlock` only runs
after the fan-out loop, so a slow or dead member stalls any operation
needing the write lock. -/
theorem broadcast_writes_held_read_lock (p : Party) (m : Outgoing) :
    writesUnderReadLock (p.Broadcast m).2 = true := by
  unfold writesUnderReadLock Party.Broadcast traceWithLocks
  rw [List.cons_append]
  simp only [traceWithLocksFrom, stepLock, List.nil_append, List.append_eq]
  rw [traceWithLocksFrom_writes_runlock]
  simp [List.all_append, List.all_map, REvent.isWrite]
  intro a b x x1 hmem ha hb
  right
  exact hb.symm

/-- C3 counterexample: with a join sink registered, `addUser` notifies it
with a plain blocking channel send — the claim that the send is
non-blocking (skipping a sink with no ready receiver) is false. -/
theorem join_notice_blocking_cex :
    sinkSendsNonblockingOutsideLock (demoSinkParty.addUser demoUser).2 = false := by
  decide

/-- C3 amended: for every join and every leave, the notification to a
registered channel sink is sent after the registry lock has been released
(no lock is held at the send), but with a plain blocking channel send: a
sink with no ready receiver stalls the operation rather than being
skipped. -/
theorem join_leave_notice_outside_lock_blocking (p : Party) (u : user) (id : String) :
    sinkSendsBlockingOutsideLock (p.addUser u).2 = true ∧
    sinkSendsBlockingOutsideLock (p.removeUser id).2.2 = true := by
  constructor
  · cases hJ : p.hasJoinChannel <;>
      simp [Party.addUser, hJ, sinkSendsBlockingOutsideLock, traceWithLocks,
        traceWithLocksFrom, stepLock]
  · cases hl : mapLookup id p.connectedUsers <;>
      cases hL : p.hasLeaveChannel <;>
        simp [Party.removeUser, hl, hL, sinkSendsBlockingOutsideLock, traceWithLocks,
          traceWithLocksFrom, stepLock]

/-- C6 counterexample: a unicast to the registered member performs a
transport write on the registry caller's goroutine, not on the actor's
lifecycle goroutine — the claim that all writes are serialized through
the single lifecycle loop is false. -/
theorem writes_not_serialized_cex :
    transportOpsOnLifecycle (demoParty.Message "a" demoMsg).2 = false := by
  decide

/-- C6 amended: application writes (broadcast and unicast deliveries) are
issued against the member's transport inline on the registry caller's
goroutine, while keepalive pings are issued by the actor's lifecycle
goroutine — so writes are not serialized through a single loop, and a
registry caller can write a transport concurrently with the ping loop. -/
theorem writes_from_caller_goroutine (p : Party) (id : String) (m : Outgoing) (u : user) :
    transportOpsOnCaller (p.Broadcast m).2 = true ∧
    transportOpsOnCaller (p.Message id m).2 = true ∧
    transportOpsOnLifecycle u.lifecycleTick = true := by
  refine ⟨?_, ?_, rfl⟩
  · unfold transportOpsOnCaller Party.Broadcast
    simp [List.all_append, List.all_map, REvent.goroutine?]
    intro x x1 x2 hmem hx
    subst hx
    rfl
  · cases hl : mapLookup id p.connectedUsers <;>
      simp [transportOpsOnCaller, Party.Message, hl, REvent.goroutine?]

/-- Inserting a fresh key grows the map by exactly one entry. -/
theorem length_mapInsert_of_none (k : String) (v : user) (m : List (String × user))
    (h : mapLookup k m = none) : (mapInsert k v m).length = m.length + 1 := by
  induction m with
  | nil => rfl
  | cons pr rest ih =>
      rw [mapLookup] at h
      by_cases hp : pr.1 = k
      · rw [if_pos hp] at h; exact absurd h (by simp)
      · rw [if_neg hp] at h
        rw [mapInsert, if_neg hp, List.length_cons, List.length_cons, ih h]

/-- Inserting a fresh key appends it to the key list. -/
theorem keys_mapInsert_of_none (k : String) (v : user) (m : List (String × user))
    (h : mapLookup k m = none) :
    (mapInsert k v m).map Prod.fst = m.map Prod.fst ++ [k] := by
  induction m with
  | nil => rfl
  | cons pr rest ih =>
      rw [mapLookup] at h
      by_cases hp : pr.1 = k
      · rw [if_pos hp] at h; exact absurd h (by simp)
      · rw [if_neg hp] at h
        rw [mapInsert, if_neg hp, List.map_cons, List.map_cons, ih h, List.cons_append]

/-- Insertion keyed by the inserted user's ID preserves well-formedness. -/
theorem wf_mapInsert {m : List (String × user)} {v : user} {k : String}
    (hm : ∀ pr ∈ m, pr.2.ID = pr.1) (hv : v.ID = k) :
    ∀ pr ∈ mapInsert k v m, pr.2.ID = pr.1 := by
  induction m with
  | nil =>
      intro pr hpr
      rw [mapInsert] at hpr
      rw [List.mem_singleton.mp hpr]
      exact hv
  | cons hd tl ih =>
      intro pr hpr
      rw [mapInsert] at hpr
      by_cases hp : hd.1 = k
      · rw [if_pos hp] at hpr
        rcases List.mem_cons.mp hpr with h1 | h2
        · rw [h1]; exact hv
        · exact hm pr (List.mem_cons_of_mem hd h2)
      · rw [if_neg hp] at hpr
        rcases List.mem_cons.mp hpr with h1 | h2
        · rw [h1]; exact hm hd (List.mem_cons_self hd tl)
        · exact ih (fun q hq => hm q (List.mem_cons_of_mem hd hq)) pr h2

/-- Deletion produces a sublist of the map. -/
theorem mapDelete_sublist (k : String) (m : List (String × user)) :
    (mapDelete k m).Sublist m := by
  induction m with
  | nil => simp [mapDelete]
  | cons pr rest ih =>
      rw [mapDelete]
      by_cases hp : pr.1 = k
      · rw [if_pos hp]; exact List.Sublist.cons pr ih
      · rw [if_neg hp]; exact List.Sublist.cons₂ pr ih

/-- Deleting an absent key changes nothing. -/
theorem mapDelete_eq_of_none (k : String) (m : List (String × user))
    (h : mapLookup k m = none) : mapDelete k m = m := by
  induction m with
  | nil => rfl
  | cons pr rest ih =>
      rw [mapLookup] at h
      by_cases hp : pr.1 = k
      · rw [if_pos hp] at h; exact absurd h (by simp)
      · rw [if_neg hp] at h
        rw [mapDelete, if_neg hp, ih h]

/-- With distinct keys, deleting a present key shrinks the map by exactly
one entry. -/
theorem length_mapDelete_of_some (k : String) (u : user) (m : List (String × user))
    (hn : (m.map Prod.fst).Nodup) (h : mapLookup k m = some u) :
    (mapDelete k m).length + 1 = m.length := by
  induction m with
  | nil => simp [mapLookup] at h
  | cons pr rest ih =>
      rw [mapLookup] at h
      rw [mapDelete]
      rw [List.map_cons, List.nodup_cons] at hn
      by_cases hp : pr.1 = k
      · rw [if_pos hp]
        have hk : mapLookup k rest = none := by
          apply (mapLookup_eq_none_iff k rest).mpr
          rw [← hp]; exact hn.1
        rw [mapDelete_eq_of_none k rest hk, List.length_cons]
      · rw [if_neg hp] at h
        rw [if_neg hp, List.length_cons, List.length_cons]
        rw [ih hn.2 h]

/-- Counting invariant of the registry: along any collision-free run from
a registry satisfying the invariant, the member count plus the successful
leaves equals the starting count plus the joins. -/
theorem runParty_count (ops : List Op) :
    ∀ p : Party, partyInv p → collisionFree p ops = true →
      (runParty p ops).connectedUsers.length + leaveCount p ops
        = p.connectedUsers.length + joinCount ops := by
  induction ops with
  | nil =>
      intro p _ _
      simp [runParty, leaveCount, joinCount]
  | cons op rest ih =>
      intro p hinv hcf
      cases op with
      | join u =>
          rw [collisionFree] at hcf
          rw [Bool.and_eq_true] at hcf
          have hnone : mapLookup u.ID p.connectedUsers = none :=
            Option.isNone_iff_eq_none.mp hcf.1
          have hk : u.ID ∉ p.connectedUsers.map Prod.fst :=
            (mapLookup_eq_none_iff u.ID p.connectedUsers).mp hnone
          have hwf2 : wellFormed (p.addUser u).1 := wf_mapInsert hinv.2 rfl
          have hnd2 : (((p.addUser u).1.connectedUsers).map Prod.fst).Nodup := by
            show ((mapInsert u.ID u p.connectedUsers).map Prod.fst).Nodup
            rw [keys_mapInsert_of_none u.ID u p.connectedUsers hnone]
            simp [List.nodup_append, hinv.1, hk]
          have hrec := ih (p.addUser u).1 ⟨hnd2, hwf2⟩ hcf.2
          have hlen : (p.addUser u).1.connectedUsers.length
              = p.connectedUsers.length + 1 :=
            length_mapInsert_of_none u.ID u p.connectedUsers hnone
          rw [runParty, leaveCount, joinCount]
          omega
      | leave id =>
          rw [collisionFree] at hcf
          cases hl : mapLookup id p.connectedUsers with
          | none =>
              have hstate : (p.removeUser id).2.1 = p := by
                simp [Party.removeUser, hl]
              rw [runParty, leaveCount, joinCount, hl, hstate]
              rw [hstate] at hcf
              have hrec := ih p hinv hcf
              simp only [Option.isSome_none, Bool.false_eq_true, if_false]
              omega
          | some usr =>
              have hid : usr.ID = id := mapLookup_some_id hinv.2 hl
              have hstate : (p.removeUser id).2.1
                  = { p with connectedUsers := mapDelete usr.ID p.connectedUsers } := by
                simp [Party.removeUser, hl]
              have hsub := mapDelete_sublist usr.ID p.connectedUsers
              have hwf2 : wellFormed (p.removeUser id).2.1 := by
                rw [hstate]
                intro pr hpr
                exact hinv.2 pr (hsub.subset hpr)
              have hnd2 : (((p.removeUser id).2.1.connectedUsers).map Prod.fst).Nodup := by
                rw [hstate]
                exact List.Nodup.sublist (hsub.map Prod.fst) hinv.1
              have hlen : (p.removeUser id).2.1.connectedUsers.length + 1
                  = p.connectedUsers.length := by
                rw [hstate]
                apply length_mapDelete_of_some usr.ID usr p.connectedUsers hinv.1
                rw [hid]; exact hl
              have hrec := ih (p.removeUser id).2.1 ⟨hnd2, hwf2⟩ hcf
              rw [runParty, leaveCount, joinCount, hl]
              simp only [Option.isSome_some, if_true]
              omega

/-- C7 counterexample: two joins under the same identity (the second
overwrites the first in the map) leave the count at 1, not at
joins minus leaves = 2 — the claim fails for sequences reusing a live
identity. -/
theorem count_joins_minus_leaves_cex :
    Party.GetConnectedUserCount (runParty emptyParty [Op.join demoUser, Op.join demoUser]) = 1 ∧
    joinCount [Op.join demoUser, Op.join demoUser] = 2 ∧
    leaveCount emptyParty [Op.join demoUser, Op.join demoUser] = 0 ∧
    Party.GetConnectedUserCount (runParty emptyParty [Op.join demoUser, Op.join demoUser])
      ≠ joinCount [Op.join demoUser, Op.join demoUser]
        - leaveCount emptyParty [Op.join demoUser, Op.join demoUser] := by
  decide

/-- C7 amended: for every collision-free sequence of joins and leaves from
the empty registry (no join reuses an identity that is currently a member
— the identity-issuer contract), `GetConnectedUserCount` equals the
number of joins minus the number of successful leaves, i.e. the size of
the member map. -/
theorem count_joins_minus_leaves (ops : List Op)
    (h : collisionFree emptyParty ops = true) :
    Party.GetConnectedUserCount (runParty emptyParty ops)
        = joinCount ops - leaveCount emptyParty ops ∧
    leaveCount emptyParty ops ≤ joinCount ops := by
  have hinv : partyInv emptyParty := by
    refine ⟨by simp [emptyParty], ?_⟩
    intro pr hpr
    simp [emptyParty] at hpr
  have hrec := runParty_count ops emptyParty hinv h
  have h0 : emptyParty.connectedUsers.length = 0 := rfl
  unfold Party.GetConnectedUserCount
  omega

/-- C7 witness: a join followed by a successful leave. -/
theorem count_joins_minus_leaves_witness :
    Party.GetConnectedUserCount (runParty emptyParty [Op.join demoUser, Op.leave "a"])
        = joinCount [Op.join demoUser, Op.leave "a"]
          - leaveCount emptyParty [Op.join demoUser, Op.leave "a"] ∧
    leaveCount emptyParty [Op.join demoUser, Op.leave "a"]
        ≤ joinCount [Op.join demoUser, Op.leave "a"] :=
  count_joins_minus_leaves [Op.join demoUser, Op.leave "a"] (by decide)
